import Mathlib

/-!
Shallow embedding of the sticker-sheet PDF generator (`app.py`).

Physical lengths (inches and points) are modelled as exact rationals; the
Python floats never get close to rounding boundaries for the properties
proved here.  Colors are RGB triples of rationals.  The palette names
imported from `reportlab.lib.colors` carry the HTML-spec component values
that library defines via `HexColor` (`green` = #008000, `purple` = #800080,
`orange` = #FFA500, `brown` = #A52A2A, and so on).

The drawing surface (`reportlab` canvas) is modelled as a list of draw
operations; font metrics (`pdfmetrics.stringWidth`, ascent, descent) are
external inputs and appear as explicit function/number parameters.
-/

namespace StickerPdf

/-- An RGB color, components as exact rationals in `[0, 1]`. -/
structure RGB where
  r : ℚ
  g : ℚ
  b : ℚ
deriving DecidableEq

/-- `reportlab.lib.units.inch`: one inch in points. -/
def inch : ℚ := 72

def FONT_SIZE_PT : ℚ := 18
def FONT_MIN_PT : ℚ := 12

/-- `reportlab.lib.colors.black`. -/
def black : RGB := ⟨0, 0, 0⟩
/-- `reportlab.lib.colors.green` (HTML #008000). -/
def green : RGB := ⟨0, 128/255, 0⟩
/-- `reportlab.lib.colors.yellow` (HTML #FFFF00). -/
def yellow : RGB := ⟨1, 1, 0⟩
/-- `reportlab.lib.colors.red` (HTML #FF0000). -/
def red : RGB := ⟨1, 0, 0⟩
/-- `reportlab.lib.colors.blue` (HTML #0000FF). -/
def blue : RGB := ⟨0, 0, 1⟩
/-- `reportlab.lib.colors.purple` (HTML #800080). -/
def purple : RGB := ⟨128/255, 0, 128/255⟩
/-- `reportlab.lib.colors.orange` (HTML #FFA500). -/
def orange : RGB := ⟨1, 165/255, 0⟩
/-- `reportlab.lib.colors.brown` (HTML #A52A2A). -/
def brown : RGB := ⟨165/255, 42/255, 42/255⟩

/-- `COLOR_PALETTE` from `app.py` lines 19-32: maroon, black, green, yellow,
red, blue, purple, orange, brown, teal, purple (again, as an explicit
`Color(128/255, 0, 128/255)`), navy. -/
def COLOR_PALETTE : List RGB :=
  [ ⟨128/255, 0, 0⟩,          -- maroon
    black,
    green,
    yellow,
    red,
    blue,
    purple,
    orange,
    brown,
    ⟨0, 128/255, 128/255⟩,    -- teal
    ⟨128/255, 0, 128/255⟩,    -- purple
    ⟨0, 0, 128/255⟩ ]         -- navy

def DRAW_BORDERS : Bool := false
def LINE_THICK_PT : ℚ := 1
def INNER_PAD_IN : ℚ := 5/100
def V_TEXT_PAD_IN : ℚ := 6/100
def H_TEXT_PAD_IN : ℚ := 6/100
def TOP_CENTER_BIAS_PT : ℚ := -2

/-- `fit_font_size` from `app.py` lines 69-75.  The external metrics call
`pdfmetrics.stringWidth(text, font_name, size)` is passed in as the function
`stringWidth` (the font name is already applied). -/
def fit_font_size (stringWidth : String → ℚ → ℚ) (text : String)
    (max_width_pt desired_pt min_pt : ℚ) : ℚ :=
  let w := stringWidth text desired_pt
  if w ≤ max_width_pt then desired_pt
  else if desired_pt ≤ min_pt then min_pt
  else max min_pt (desired_pt * (max_width_pt / w))

/-- A font as the core sees it: the width metric and the (per-mille) ascent
and descent values returned by `pdfmetrics.getAscent` / `getDescent`. -/
structure Font where
  stringWidth : String → ℚ → ℚ
  ascent : ℚ
  descent : ℚ

/-- One operation issued against the drawing surface. -/
inductive DrawOp where
  | rect (x y w h : ℚ)
  | line (x0 y0 x1 y1 : ℚ)
  | text (s : String) (x baseline size : ℚ) (color : RGB)
deriving DecidableEq

/-- `draw_centered_text_in_region` from `app.py` lines 77-89: fits the font
size, then emits one text op at the horizontally centered x and the
ascent/descent-adjusted baseline. -/
def draw_centered_text_in_region (f : Font) (x_center_pt y0_pt y1_pt : ℚ)
    (text : String) (base_font_size_pt max_width_pt : ℚ) (color : RGB)
    (center_bias_pt : ℚ) : DrawOp :=
  let font_size_pt := fit_font_size f.stringWidth text max_width_pt base_font_size_pt FONT_MIN_PT
  let w := f.stringWidth text font_size_pt
  let region_center := (y0_pt + y1_pt) / 2
  let baseline := region_center - ((f.ascent + f.descent) * font_size_pt) / 2000 + center_bias_pt
  DrawOp.text text (x_center_pt - w / 2) baseline font_size_pt color

/-- `draw_sticker` from `app.py` lines 91-124: optional border, the
half-height divider (always), then the top and bottom texts when non-empty
(Python truthiness of a string). -/
def draw_sticker (f : Font) (x_pt y_pt w_pt h_pt : ℚ)
    (top_text bottom_text : String) (font_size_pt : ℚ) (text_color : RGB)
    (draw_border : Bool) : List DrawOp :=
  let line_y := y_pt + h_pt * (1/2)
  let line_pad := INNER_PAD_IN * inch
  let vpad := V_TEXT_PAD_IN * inch
  let hpad := H_TEXT_PAD_IN * inch
  let top_y0 := line_y + vpad
  let top_y1 := (y_pt + h_pt) - vpad
  let bot_y0 := y_pt + vpad
  let bot_y1 := line_y - vpad
  let x_center := x_pt + w_pt / 2
  let max_text_w := w_pt - 2 * hpad
  (if draw_border then [DrawOp.rect x_pt y_pt w_pt h_pt] else []) ++
  [DrawOp.line (x_pt + line_pad) line_y (x_pt + w_pt - line_pad) line_y] ++
  (if top_text ≠ "" then
    [draw_centered_text_in_region f x_center top_y0 top_y1 top_text
      font_size_pt max_text_w text_color TOP_CENTER_BIAS_PT]
   else []) ++
  (if bottom_text ≠ "" then
    [draw_centered_text_in_region f x_center bot_y0 bot_y1 bottom_text
      font_size_pt max_text_w text_color 0]
   else [])

/-- `compute_grid` from `app.py` lines 126-130: max whole stickers that fit,
each dimension clamped to at least 0; returns (cols, rows, cols * rows). -/
def compute_grid (work_w_in work_h_in sticker_w_in sticker_h_in : ℚ) :
    ℤ × ℤ × ℤ :=
  let cols := max ⌊work_w_in / sticker_w_in⌋ 0
  let rows := max ⌊work_h_in / sticker_h_in⌋ 0
  (cols, rows, cols * rows)

/-- One raw input row as it reaches `make_multi_sticker_pdf_dynamic`: two
text fields and the result of `pd.to_numeric(count, errors="coerce")`
(`none` models NaN from an unparseable value). -/
structure RawRow where
  top : String
  bottom : String
  count : Option ℚ
deriving DecidableEq

/-- A validated job row after cleaning: trimmed texts, integer count. -/
structure Job where
  top : String
  bottom : String
  count : ℤ
deriving DecidableEq

/-- Truncation toward zero, the behaviour of `astype(int)` on a float. -/
def truncToZero (q : ℚ) : ℤ := if 0 ≤ q then ⌊q⌋ else ⌈q⌉

/-- `.fillna(0).astype(int)` applied to the `to_numeric` result. -/
def coerceCount : Option ℚ → ℤ
  | none => 0
  | some q => truncToZero q

/-- Python `str.strip()`: drop leading and trailing whitespace. -/
def pyStrip (s : String) : String :=
  String.mk (((s.data.dropWhile Char.isWhitespace).reverse.dropWhile Char.isWhitespace).reverse)

/-- The cleaning step of `make_multi_sticker_pdf_dynamic` (lines 144-149):
strip both texts, coerce the count, keep rows with non-empty texts and a
positive count. -/
def cleanRows (raw : List RawRow) : List Job :=
  (raw.map fun r => Job.mk (pyStrip r.top) (pyStrip r.bottom) (coerceCount r.count)).filter
    fun j => !(j.top == "") && !(j.bottom == "") && decide (0 < j.count)

/-- `df[['top','bottom']].drop_duplicates()` (line 154): the unique
(top, bottom) pairs in order of first appearance. -/
def uniquePairs (jobs : List Job) : List (String × String) :=
  jobs.foldl
    (fun acc j => if acc.contains (j.top, j.bottom) then acc else acc ++ [(j.top, j.bottom)])
    []

/-- Palette entry for a 0-based first-seen index (lines 156-158):
`COLOR_PALETTE[i % len(COLOR_PALETTE)]`. -/
def paletteColor (i : ℕ) : RGB := COLOR_PALETTE.getD (i % COLOR_PALETTE.length) black

/-- The `color_mapping` dict (lines 155-158) as a function: the color of a
pair is the palette entry at its first-seen index.  A pair absent from the
job list has no entry in the Python dict; the `black` default is never
reached by the generator, which only looks up pairs of the job list. -/
def colorMapping (jobs : List Job) (p : String × String) : RGB :=
  match (uniquePairs jobs).findIdx? (fun q => q == p) with
  | some i => paletteColor i
  | none => black

/-- One element of the flattened sticker stream. -/
structure Sticker where
  top : String
  bottom : String
  color : RGB
deriving DecidableEq

/-- `sticker_stream` (lines 190-194): for each cleaned row in order, yield
`count` copies of (top, bottom, assigned color). -/
def sticker_stream (jobs : List Job) : List Sticker :=
  jobs.flatMap fun j =>
    List.replicate j.count.toNat (Sticker.mk j.top j.bottom (colorMapping jobs (j.top, j.bottom)))

/-- One rendered cell of a page: texts, color, and whether it is the blank
placeholder drawn after the stream ran out. -/
structure Cell where
  top : String
  bottom : String
  color : RGB
  is_blank : Bool
deriving DecidableEq

/-- The `StopIteration` fallback of the slot loop (line 206): empty texts,
black, flagged blank. -/
def blankCell : Cell := Cell.mk "" "" black true

/-- The cell drawn at slot `i` of a page whose remaining stream is
`stream`: the next stream element if one exists, else the blank filler. -/
def fillSlot (stream : List Sticker) (i : ℕ) : Cell :=
  match stream[i]? with
  | some s => Cell.mk s.top s.bottom s.color false
  | none => blankCell

/-- One page of the inner `for slot in range(capacity)` loop (lines
201-221), as the list of cells drawn at slots `0, …, capacity-1`. -/
def mkPage (stream : List Sticker) (capacity : ℕ) : List Cell :=
  (List.range capacity).map (fillSlot stream)

/-- The `while True` page loop (lines 200-225): emit a full page, then stop
as soon as every real sticker has been drawn (`drawn >= total_count`),
i.e. when the stream remaining after this page is empty.  The `capacity = 0`
guard is unreachable in the generator, which validates `capacity > 0`
before paginating (the Python loop would not terminate there). -/
def paginate (capacity : ℕ) (stream : List Sticker) : List (List Cell) :=
  if hc : capacity = 0 then []
  else if h : (stream.drop capacity).isEmpty then [mkPage stream capacity]
  else mkPage stream capacity :: paginate capacity (stream.drop capacity)
termination_by stream.length
decreasing_by
  simp only [List.isEmpty_iff, ← List.length_eq_zero, List.length_drop] at h
  simp only [List.length_drop]
  omega

/-- The page/cell-size parameters of one generation run, in inches. -/
structure PageSpec where
  page_w_in : ℚ
  page_h_in : ℚ
  margin_in : ℚ
  sticker_w_in : ℚ
  sticker_h_in : ℚ
deriving DecidableEq

/-- `work_w_in = page_w_in - 2 * margin_in` (line 160). -/
def work_w_in (spec : PageSpec) : ℚ := spec.page_w_in - 2 * spec.margin_in

/-- `work_h_in = page_h_in - 2 * margin_in` (line 161). -/
def work_h_in (spec : PageSpec) : ℚ := spec.page_h_in - 2 * spec.margin_in

/-- The grid of one run: `compute_grid` applied to the working area and the
sticker size (line 165). -/
def gridOf (spec : PageSpec) : ℤ × ℤ × ℤ :=
  compute_grid (work_w_in spec) (work_h_in spec) spec.sticker_w_in spec.sticker_h_in

/-- The placement arithmetic of the slot loop (lines 209-214), producing
the (x, y) origin in points of the cell at index `slot`:  row-major from
the logical top-left, flipped to bottom-origin coordinates, inside the
grid centered in the working area (lines 177-183). -/
def slotPlacement (spec : PageSpec) (slot : ℕ) : ℚ × ℚ :=
  let g := gridOf spec
  let cols := g.1
  let rows := g.2.1
  let left_margin_pt := spec.margin_in * inch
  let bottom_margin_pt := spec.margin_in * inch
  let sticker_w_pt := spec.sticker_w_in * inch
  let sticker_h_pt := spec.sticker_h_in * inch
  let used_w_pt := (cols : ℚ) * sticker_w_pt
  let used_h_pt := (rows : ℚ) * sticker_h_pt
  let work_w_pt := work_w_in spec * inch
  let work_h_pt := work_h_in spec * inch
  let offset_x_pt := (work_w_pt - used_w_pt) / 2
  let offset_y_pt := (work_h_pt - used_h_pt) / 2
  let r : ℤ := (slot : ℤ) / cols
  let col : ℤ := (slot : ℤ) % cols
  let row_from_bottom : ℤ := rows - 1 - r
  (left_margin_pt + offset_x_pt + (col : ℚ) * sticker_w_pt,
   bottom_margin_pt + offset_y_pt + (row_from_bottom : ℚ) * sticker_h_pt)

/-- The summary dict returned by the generator (lines 231-235). -/
structure Summary where
  cols : ℤ
  rows : ℤ
  per_page : ℤ
  total : ℕ
  pages : ℤ
  colors_used : ℕ
deriving DecidableEq

/-- `make_multi_sticker_pdf_dynamic` (lines 133-235), with the drawing
surface abstracted to the list of pages of cells: clean the rows, validate,
compute the grid, paginate the sticker stream, and build the summary
(`total` is the count of real stickers drawn, which at loop exit equals the
stream length; `pages` is `math.ceil(drawn / capacity)`). -/
def make_multi_sticker_pdf_dynamic (raw : List RawRow) (spec : PageSpec) :
    Except String (List (List Cell) × Summary) :=
  let df := cleanRows raw
  if df.isEmpty then
    .error "No valid sticker rows. Fill top, bottom, and a positive count."
  else
    if work_w_in spec ≤ 0 ∨ work_h_in spec ≤ 0 then
      .error "Margins are too large for the page size."
    else
      let g := gridOf spec
      let cols := g.1
      let rows := g.2.1
      let capacity := g.2.2
      if capacity ≤ 0 then
        .error "Sticker size does not fit the working area. Increase page, reduce margins, or shrink stickers."
      else
        let stream := sticker_stream df
        let pages := paginate capacity.toNat stream
        let drawn := stream.length
        .ok (pages,
          Summary.mk cols rows capacity drawn ⌈(drawn : ℚ) / (capacity : ℚ)⌉
            (((uniquePairs df).map (colorMapping df)).dedup.length))

/-- Classifier for the geometry (non-text) operations of a cell. -/
def isGeometryOp : DrawOp → Bool
  | .text _ _ _ _ _ => false
  | _ => true

/-- A linear width metric used to exercise `fit_font_size` on concrete
inputs: each character ten points wide per point of font size. -/
def swTimesTen : String → ℚ → ℚ := fun _ s => 10 * s

/-- Eleven jobs with pairwise distinct (top, bottom) pairs. -/
def jobsElevenPairs : List Job :=
  [Job.mk "0" "x" 1, Job.mk "1" "x" 1, Job.mk "2" "x" 1, Job.mk "3" "x" 1,
   Job.mk "4" "x" 1, Job.mk "5" "x" 1, Job.mk "6" "x" 1, Job.mk "7" "x" 1,
   Job.mk "8" "x" 1, Job.mk "9" "x" 1, Job.mk "10" "x" 1]

/-- A two-row job list: row ("A", "a") twice, row ("B", "b") once. -/
def jobsAB : List Job := [Job.mk "A" "a" 2, Job.mk "B" "b" 1]

/-- The first stream element of `jobsAB`. -/
def stickerAa : Sticker := Sticker.mk "A" "a" ⟨128/255, 0, 0⟩

/-- One raw row: texts "A"/"B", count 3. -/
def raw0 : List RawRow := [RawRow.mk "A" "B" (some 3)]

/-- A tiny page spec: 2 x 1 inch page, no margin, 1 x 1 inch stickers, so
the grid is 2 columns by 1 row, capacity 2. -/
def spec0 : PageSpec := PageSpec.mk 2 1 0 1 1

/-- The cell the generator draws for each sticker of `raw0`. -/
def cellAB : Cell := Cell.mk "A" "B" ⟨128/255, 0, 0⟩ false

/-- The stream element of `raw0`: maroon, the first palette color. -/
def stAB : Sticker := Sticker.mk "A" "B" ⟨128/255, 0, 0⟩

/-- The pages the generator emits for `raw0` and `spec0`. -/
def pages0 : List (List Cell) := [[cellAB, cellAB], [cellAB, blankCell]]

/-- The summary the generator returns for `raw0` and `spec0`. -/
def summary0 : Summary := Summary.mk 2 1 2 3 2 1

/-- The page spec of the spec scenario: 12 x 18 inch page, 0.25 inch
margin, 1.134 x 0.585 inch stickers. -/
def specBig : PageSpec := PageSpec.mk 12 18 (1/4) (567/500) (117/200)

/-- A colorless test sticker. -/
def stickerPlain : Sticker := Sticker.mk "A" "B" black

/-- Claim C3: for positive working dimensions and positive cell dimensions,
`compute_grid` returns the floors of the two quotients (the clamps to 0 are
no-ops), the capacity is their product, and the resulting grid never
overflows the working area. -/
theorem compute_grid_spec (w h cw ch : ℚ)
    (hw : 0 < w) (hh : 0 < h) (hcw : 0 < cw) (hch : 0 < ch) :
    compute_grid w h cw ch = (⌊w / cw⌋, ⌊h / ch⌋, ⌊w / cw⌋ * ⌊h / ch⌋) ∧
    0 ≤ ⌊w / cw⌋ ∧ 0 ≤ ⌊h / ch⌋ ∧
    (⌊w / cw⌋ : ℚ) * cw ≤ w ∧ (⌊h / ch⌋ : ℚ) * ch ≤ h := by
  have h1 : (0 : ℤ) ≤ ⌊w / cw⌋ := Int.floor_nonneg.mpr (le_of_lt (div_pos hw hcw))
  have h2 : (0 : ℤ) ≤ ⌊h / ch⌋ := Int.floor_nonneg.mpr (le_of_lt (div_pos hh hch))
  refine ⟨?_, h1, h2, ?_, ?_⟩
  · simp [compute_grid, max_eq_left h1, max_eq_left h2]
  · have hfl : (⌊w / cw⌋ : ℚ) ≤ w / cw := Int.floor_le (w / cw)
    calc (⌊w / cw⌋ : ℚ) * cw ≤ (w / cw) * cw :=
          mul_le_mul_of_nonneg_right hfl (le_of_lt hcw)
      _ = w := div_mul_cancel₀ w (ne_of_gt hcw)
  · have hfl : (⌊h / ch⌋ : ℚ) ≤ h / ch := Int.floor_le (h / ch)
    calc (⌊h / ch⌋ : ℚ) * ch ≤ (h / ch) * ch :=
          mul_le_mul_of_nonneg_right hfl (le_of_lt hch)
      _ = h := div_mul_cancel₀ h (ne_of_gt hch)

/-- Witness for C3 at the spec scenario working area 11.5 x 17.5 and cell
1.134 x 0.585. -/
theorem compute_grid_spec_witness :
    compute_grid (23/2) (35/2) (567/500) (117/200) =
      (⌊(23/2 : ℚ) / (567/500)⌋, ⌊(35/2 : ℚ) / (117/200)⌋,
        ⌊(23/2 : ℚ) / (567/500)⌋ * ⌊(35/2 : ℚ) / (117/200)⌋) ∧
    0 ≤ ⌊(23/2 : ℚ) / (567/500)⌋ ∧ 0 ≤ ⌊(35/2 : ℚ) / (117/200)⌋ ∧
    (⌊(23/2 : ℚ) / (567/500)⌋ : ℚ) * (567/500) ≤ 23/2 ∧
    (⌊(35/2 : ℚ) / (117/200)⌋ : ℚ) * (117/200) ≤ 35/2 :=
  compute_grid_spec (23/2) (35/2) (567/500) (117/200)
    (by norm_num) (by norm_num) (by norm_num) (by norm_num)

/-- Claim C8: if the measured width at the desired size fits the maximum
width, `fit_font_size` returns the desired size unchanged; otherwise it
returns the desired size scaled by `maxWidth / measuredWidth`, clamped to
the minimum size from below, and in particular never returns less than the
minimum size in the overflow case. -/
theorem fit_font_size_spec (sw : String → ℚ → ℚ) (text : String)
    (max_width_pt desired_pt min_pt : ℚ)
    (hd : 0 < desired_pt) (hmw : 0 ≤ max_width_pt) :
    (sw text desired_pt ≤ max_width_pt →
      fit_font_size sw text max_width_pt desired_pt min_pt = desired_pt) ∧
    (max_width_pt < sw text desired_pt →
      fit_font_size sw text max_width_pt desired_pt min_pt =
        max min_pt (desired_pt * (max_width_pt / sw text desired_pt)) ∧
      min_pt ≤ fit_font_size sw text max_width_pt desired_pt min_pt) := by
  constructor
  · intro hfit
    simp [fit_font_size, hfit]
  · intro hover
    have hw0 : 0 < sw text desired_pt := lt_of_le_of_lt hmw hover
    have hnotle : ¬ sw text desired_pt ≤ max_width_pt := not_le.mpr hover
    by_cases hdm : desired_pt ≤ min_pt
    · have hr1 : max_width_pt / sw text desired_pt < 1 := (div_lt_one hw0).mpr hover
      have hr0 : 0 ≤ max_width_pt / sw text desired_pt := div_nonneg hmw (le_of_lt hw0)
      have hratio : desired_pt * (max_width_pt / sw text desired_pt) ≤ min_pt := by
        nlinarith
      constructor
      · simp [fit_font_size, hnotle, hdm, max_eq_left hratio]
      · simp [fit_font_size, hnotle, hdm]
    · constructor
      · simp [fit_font_size, hnotle, hdm]
      · simp only [fit_font_size, if_neg hnotle, if_neg hdm]
        exact le_max_left _ _

/-- Witness for C8: width metric 10 per point, text at size 18 measures
180 which overflows a 100-point region, so the size is scaled to
18 * 100/180 = 10 and clamped up to the minimum 12. -/
theorem fit_font_size_spec_witness :
    (0 : ℚ) < 18 ∧ (0 : ℚ) ≤ 100 ∧
    (swTimesTen "hello" 18 ≤ 100 → fit_font_size swTimesTen "hello" 100 18 12 = 18) ∧
    (100 < swTimesTen "hello" 18 →
      fit_font_size swTimesTen "hello" 100 18 12 =
        max 12 (18 * (100 / swTimesTen "hello" 18)) ∧
      12 ≤ fit_font_size swTimesTen "hello" 100 18 12) :=
  ⟨by norm_num, by norm_num, fit_font_size_spec swTimesTen "hello" 100 18 12
    (by norm_num) (by norm_num)⟩

/-- Claim C9: in the overflow case `fit_font_size` never returns less than
the minimum size, and when the desired size is already at or below the
minimum it returns exactly the minimum, which then exceeds the requested
size; when the text fits, the desired size is returned even below the
minimum.  The width function is arbitrary, so the result holds regardless
of whether the minimum size itself would fit. -/
theorem fit_font_size_min_clamp (sw : String → ℚ → ℚ) (text : String)
    (max_width_pt desired_pt min_pt : ℚ)
    (hd : 0 < desired_pt) (hmw : 0 ≤ max_width_pt) :
    (max_width_pt < sw text desired_pt →
      min_pt ≤ fit_font_size sw text max_width_pt desired_pt min_pt ∧
      (desired_pt < min_pt →
        fit_font_size sw text max_width_pt desired_pt min_pt = min_pt ∧
        desired_pt < fit_font_size sw text max_width_pt desired_pt min_pt)) ∧
    (sw text desired_pt ≤ max_width_pt →
      fit_font_size sw text max_width_pt desired_pt min_pt = desired_pt) := by
  constructor
  · intro hover
    have hw0 : 0 < sw text desired_pt := lt_of_le_of_lt hmw hover
    have hnotle : ¬ sw text desired_pt ≤ max_width_pt := not_le.mpr hover
    constructor
    · by_cases hdm : desired_pt ≤ min_pt
      · simp [fit_font_size, hnotle, hdm]
      · simp only [fit_font_size, if_neg hnotle, if_neg hdm]
        exact le_max_left _ _
    · intro hlt
      have hdm : desired_pt ≤ min_pt := le_of_lt hlt
      constructor
      · simp [fit_font_size, hnotle, hdm]
      · simp [fit_font_size, hnotle, hdm, hlt]
  · intro hfit
    simp [fit_font_size, hfit]

/-- Witness for C9: desired size 10 is below the minimum 12; the text
overflows (width 100 over a 50-point region), and the fitter returns the
minimum 12, enlarging the requested size. -/
theorem fit_font_size_min_clamp_witness :
    (50 : ℚ) < swTimesTen "hi" 10 ∧ (10 : ℚ) < 12 ∧
    12 ≤ fit_font_size swTimesTen "hi" 50 10 12 ∧
    fit_font_size swTimesTen "hi" 50 10 12 = 12 ∧
    (10 : ℚ) < fit_font_size swTimesTen "hi" 50 10 12 := by
  have h := fit_font_size_min_clamp swTimesTen "hi" 50 10 12 (by norm_num) (by norm_num)
  have hover : (50 : ℚ) < swTimesTen "hi" 10 := by norm_num [swTimesTen]
  have h1 := h.1 hover
  exact ⟨hover, by norm_num, h1.1, (h1.2 (by norm_num)).1, (h1.2 (by norm_num)).2⟩

/-- Claim C10: validation coerces the count to a number (unparseable
values become 0) and truncates toward zero; a fractional count such as 2.9
is kept with value 2 and yields exactly 2 stickers, a count in (0,1)
truncates to 0 and drops the row, an unparseable count drops the row, and
rows whose stripped top or bottom text is empty are dropped. -/
theorem row_validation_spec :
    (∀ q : ℚ, 0 ≤ q → coerceCount (some q) = ⌊q⌋) ∧
    (∀ q : ℚ, q < 0 → coerceCount (some q) = ⌈q⌉) ∧
    coerceCount none = 0 ∧
    (∀ q : ℚ, 0 < q → q < 1 → coerceCount (some q) = 0) ∧
    cleanRows [RawRow.mk "A" "B" (some (29/10))] = [Job.mk "A" "B" 2] ∧
    (sticker_stream (cleanRows [RawRow.mk "A" "B" (some (29/10))])).length = 2 ∧
    cleanRows [RawRow.mk "A" "B" (some (1/2))] = [] ∧
    cleanRows [RawRow.mk "A" "B" none] = [] ∧
    cleanRows [RawRow.mk " " "B" (some 3)] = [] ∧
    cleanRows [RawRow.mk "A" "" (some 3)] = [] := by
  have hA : pyStrip "A" = "A" := by decide
  have hB : pyStrip "B" = "B" := by decide
  have hSp : pyStrip " " = "" := by decide
  have hE : pyStrip "" = "" := by decide
  have h29 : coerceCount (some (29/10 : ℚ)) = 2 := by
    show truncToZero (29/10 : ℚ) = 2
    unfold truncToZero
    rw [if_pos (by norm_num)]
    norm_num
  have hHalf : coerceCount (some (1/2 : ℚ)) = 0 := by
    show truncToZero (1/2 : ℚ) = 0
    unfold truncToZero
    rw [if_pos (by norm_num)]
    norm_num
  have h3 : coerceCount (some (3 : ℚ)) = 3 := by
    show truncToZero (3 : ℚ) = 3
    unfold truncToZero
    rw [if_pos (by norm_num)]
    norm_num
  refine ⟨?_, ?_, rfl, ?_, ?_, ?_, ?_, ?_, ?_, ?_⟩
  · intro q hq
    show truncToZero q = ⌊q⌋
    unfold truncToZero
    rw [if_pos hq]
  · intro q hq
    show truncToZero q = ⌈q⌉
    unfold truncToZero
    rw [if_neg (not_le.mpr hq)]
  · intro q h0 h1
    show truncToZero q = 0
    unfold truncToZero
    rw [if_pos (le_of_lt h0)]
    exact Int.floor_eq_zero_iff.mpr ⟨le_of_lt h0, h1⟩
  · simp [cleanRows, hA, hB, h29]
  · have h5 : cleanRows [RawRow.mk "A" "B" (some (29/10))] = [Job.mk "A" "B" 2] := by
      simp [cleanRows, hA, hB, h29]
    rw [h5]
    simp [sticker_stream]
  · have hHalf2 : coerceCount (some ((2 : ℚ))⁻¹) = 0 := by
      rw [(by norm_num : ((2 : ℚ))⁻¹ = 1/2)]
      exact hHalf
    simp [cleanRows, hA, hB, hHalf2]
  · have hNone : coerceCount none = 0 := rfl
    simp [cleanRows, hA, hB, hNone]
  · simp [cleanRows, hSp, hB, h3]
  · simp [cleanRows, hA, hE, h3]

/-- Witness for C10: the 2.9 count is truncated via the floor. -/
theorem row_validation_spec_witness :
    coerceCount (some (29/10 : ℚ)) = ⌊(29/10 : ℚ)⌋ :=
  row_validation_spec.1 (29/10) (by norm_num)

/-- Counterexample to C4 as stated: eleven distinct (top,bottom) pairs do
not exceed the twelve-entry palette, yet the pairs with first-seen indices
6 and 10 receive the same color, because palette entries 6 and 10 are both
purple #800080. -/
theorem color_assignment_counterexample :
    COLOR_PALETTE.length = 12 ∧
    (uniquePairs jobsElevenPairs).length = 11 ∧
    ("6", "x") ∈ uniquePairs jobsElevenPairs ∧
    ("10", "x") ∈ uniquePairs jobsElevenPairs ∧
    ("6", "x") ≠ (("10", "x") : String × String) ∧
    colorMapping jobsElevenPairs ("6", "x") = colorMapping jobsElevenPairs ("10", "x") :=
  ⟨rfl, by decide, by decide, by decide, by decide, rfl⟩

/-- Entries of the palette other than the duplicated purple pair (6, 10)
are pairwise distinct colors. -/
theorem palette_getD_ne (a b : ℕ) (ha : a < 12) (hb : b < 12) (hne : a ≠ b)
    (h1 : ¬(a = 6 ∧ b = 10)) (h2 : ¬(a = 10 ∧ b = 6)) :
    COLOR_PALETTE.getD a black ≠ COLOR_PALETTE.getD b black := by
  interval_cases a <;> interval_cases b <;>
    simp_all [COLOR_PALETTE, black, green, yellow, red, blue, purple, orange, brown,
      RGB.mk.injEq] <;> norm_num

/-- Amended C4: each unique (top,bottom) pair is assigned
`palette[i mod 12]` where `i` is its 0-based first-seen index, and colors
repeat with period 12; however, the twelve-entry palette contains only
eleven distinct colors (entries 6 and 10 are both purple #800080), so two
distinct pairs share a color exactly when their first-seen indices are
congruent mod 12 or reduce to the pair {6, 10} mod 12 — pairs can collide
even when the palette size is not exceeded. -/
theorem color_assignment_amended (jobs : List Job) (p q : String × String) (i j : ℕ)
    (hi : (uniquePairs jobs).findIdx? (fun r => r == p) = some i)
    (hj : (uniquePairs jobs).findIdx? (fun r => r == q) = some j) :
    COLOR_PALETTE.length = 12 ∧
    colorMapping jobs p = paletteColor i ∧
    colorMapping jobs q = paletteColor j ∧
    paletteColor 6 = paletteColor 10 ∧
    (∀ k : ℕ, paletteColor (k + 12) = paletteColor k) ∧
    (colorMapping jobs p = colorMapping jobs q ↔
      (i % 12 = j % 12 ∨ (i % 12 = 6 ∧ j % 12 = 10) ∨ (i % 12 = 10 ∧ j % 12 = 6))) := by
  have hcp : colorMapping jobs p = paletteColor i := by
    simp [colorMapping, hi]
  have hcq : colorMapping jobs q = paletteColor j := by
    simp [colorMapping, hj]
  have hper : ∀ k : ℕ, paletteColor (k + 12) = paletteColor k := by
    intro k
    show COLOR_PALETTE.getD ((k + 12) % 12) black = COLOR_PALETTE.getD (k % 12) black
    rw [Nat.add_mod_right]
  refine ⟨rfl, hcp, hcq, rfl, hper, ?_⟩
  rw [hcp, hcq]
  have hi12 : i % 12 < 12 := Nat.mod_lt _ (by norm_num)
  have hj12 : j % 12 < 12 := Nat.mod_lt _ (by norm_num)
  show COLOR_PALETTE.getD (i % 12) black = COLOR_PALETTE.getD (j % 12) black ↔ _
  constructor
  · intro heq
    by_contra hcon
    simp only [not_or] at hcon
    exact palette_getD_ne _ _ hi12 hj12 hcon.1 hcon.2.1 hcon.2.2 heq
  · rintro (h | ⟨h6, h10⟩ | ⟨h10, h6⟩)
    · rw [h]
    · rw [h6, h10]
      exact rfl
    · rw [h10, h6]
      exact rfl

/-- Claim C2: the flattened sticker stream is exactly the input rows in
original order with each row's count repeats emitted consecutively in
place, every repeat carrying that row's assigned color; in particular row
("A","a") count 2 followed by row ("B","b") count 1 yields the stream
[A, A, B]. -/
theorem sticker_stream_spec (jobs : List Job) :
    ((sticker_stream jobs).map fun s => (s.top, s.bottom)) =
      (jobs.flatMap fun j => List.replicate j.count.toNat (j.top, j.bottom)) ∧
    (∀ s ∈ sticker_stream jobs, s.color = colorMapping jobs (s.top, s.bottom)) ∧
    ((sticker_stream jobsAB).map fun s => (s.top, s.bottom)) =
      [("A", "a"), ("A", "a"), ("B", "b")] := by
  refine ⟨?_, ?_, by decide⟩
  · simp [sticker_stream, List.map_flatMap, List.map_replicate]
  · intro s hs
    simp only [sticker_stream, List.mem_flatMap] at hs
    obtain ⟨j, hjmem, hrep⟩ := hs
    have hse := List.eq_of_mem_replicate hrep
    rw [hse]

/-- Witness for C2: the first repeat of row ("A","a") of `jobsAB` carries
that row's assigned color. -/
theorem sticker_stream_spec_witness :
    (Sticker.mk "A" "a" (colorMapping jobsAB ("A", "a"))).color =
      colorMapping jobsAB
        ((Sticker.mk "A" "a" (colorMapping jobsAB ("A", "a"))).top,
         (Sticker.mk "A" "a" (colorMapping jobsAB ("A", "a"))).bottom) :=
  (sticker_stream_spec jobsAB).2.1 _
    (List.mem_flatMap.mpr
      ⟨Job.mk "A" "a" 2, by decide, List.mem_replicate.mpr ⟨by decide, rfl⟩⟩)

/-- Witness for the amended C4 at the eleven-pair job list. -/
theorem color_assignment_amended_witness :
    colorMapping jobsElevenPairs ("0", "x") = paletteColor 0 :=
  (color_assignment_amended jobsElevenPairs ("0", "x") ("3", "x") 0 3
    (by decide) (by decide)).2.1

/-- A page always holds exactly `capacity` cells. -/
theorem mkPage_length (stream : List Sticker) (capacity : ℕ) :
    (mkPage stream capacity).length = capacity := by
  simp [mkPage]

/-- When the remaining stream covers the page, every cell is real. -/
theorem mkPage_all_real (stream : List Sticker) (capacity : ℕ)
    (h : capacity ≤ stream.length) :
    ∀ c ∈ mkPage stream capacity, c.is_blank = false := by
  intro c hc
  simp only [mkPage, List.mem_map, List.mem_range] at hc
  obtain ⟨i, hi, rfl⟩ := hc
  have hil : i < stream.length := lt_of_lt_of_le hi h
  simp [fillSlot, List.getElem?_eq_getElem hil]

/-- Cells flagged blank are exactly the blank placeholder. -/
theorem mkPage_blank_cells (stream : List Sticker) (capacity : ℕ) :
    ∀ c ∈ mkPage stream capacity, c.is_blank = true → c = blankCell := by
  intro c hc hb
  simp only [mkPage, List.mem_map, List.mem_range] at hc
  obtain ⟨i, hi, rfl⟩ := hc
  cases h : stream[i]? with
  | none => simp [fillSlot, h]
  | some s => simp [fillSlot, h] at hb

/-- A page built from a non-empty stream has a real cell at slot 0. -/
theorem mkPage_head_real (stream : List Sticker) (capacity : ℕ)
    (hcap : capacity ≠ 0) (hs : stream ≠ []) :
    ∃ c ∈ mkPage stream capacity, c.is_blank = false := by
  cases stream with
  | nil => exact absurd rfl hs
  | cons a t =>
    refine ⟨fillSlot (a :: t) 0, ?_, ?_⟩
    · simp only [mkPage, List.mem_map, List.mem_range]
      exact ⟨0, Nat.pos_of_ne_zero hcap, rfl⟩
    · simp [fillSlot]

/-- The page loop always emits at least one page. -/
theorem paginate_ne_nil (capacity : ℕ) (stream : List Sticker)
    (hcap : capacity ≠ 0) : paginate capacity stream ≠ [] := by
  rw [paginate]
  simp only [dif_neg hcap]
  split <;> simp

/-- The page loop emits `ceil(stream.length / capacity)` pages. -/
theorem paginate_length (capacity : ℕ) (stream : List Sticker) :
    capacity ≠ 0 → stream ≠ [] →
    (paginate capacity stream).length = (stream.length + capacity - 1) / capacity := by
  induction stream using paginate.induct capacity with
  | case1 s hc => intro hcap _; exact absurd hc hcap
  | case2 s hc hdrop =>
    intro _ hs
    rw [paginate]
    simp only [dif_neg hc, dif_pos hdrop, List.length_singleton]
    have hle : s.length ≤ capacity := by
      have hdn := List.isEmpty_iff.mp hdrop
      have hl := congrArg List.length hdn
      simp only [List.length_drop, List.length_nil] at hl
      omega
    have hpos : 1 ≤ s.length := by
      cases s with
      | nil => exact absurd rfl hs
      | cons a t => simp
    symm
    exact Nat.div_eq_of_lt_le (by omega) (by omega)
  | case3 s hc hdrop ih =>
    intro _ hs
    have hdne : s.drop capacity ≠ [] := fun he => hdrop (by simp [he])
    have hgt : capacity < s.length := by
      have h1 : 0 < (s.drop capacity).length := List.length_pos.mpr hdne
      rw [List.length_drop] at h1
      omega
    rw [paginate]
    simp only [dif_neg hc, dif_neg hdrop, List.length_cons]
    rw [ih hc hdne, List.length_drop]
    have e1 : s.length - capacity + capacity - 1 = s.length - 1 := by omega
    have e2 : s.length + capacity - 1 = (s.length - 1) + capacity := by omega
    rw [e1, e2, Nat.add_div_right _ (Nat.pos_of_ne_zero hc)]

/-- Every page emitted by the loop holds exactly `capacity` cells. -/
theorem paginate_page_length (capacity : ℕ) (stream : List Sticker) :
    capacity ≠ 0 → ∀ page ∈ paginate capacity stream, page.length = capacity := by
  induction stream using paginate.induct capacity with
  | case1 s hc => intro hcap; exact absurd hc hcap
  | case2 s hc hdrop =>
    intro _ page hp
    rw [paginate] at hp
    simp only [dif_neg hc, dif_pos hdrop, List.mem_singleton] at hp
    rw [hp]
    exact mkPage_length s capacity
  | case3 s hc hdrop ih =>
    intro hcap page hp
    rw [paginate] at hp
    simp only [dif_neg hc, dif_neg hdrop, List.mem_cons] at hp
    rcases hp with rfl | hp
    · exact mkPage_length s capacity
    · exact ih hcap page hp

/-- Every blank-flagged cell on any emitted page is the blank placeholder. -/
theorem paginate_blank_cells (capacity : ℕ) (stream : List Sticker) :
    capacity ≠ 0 →
    ∀ page ∈ paginate capacity stream, ∀ c ∈ page, c.is_blank = true → c = blankCell := by
  induction stream using paginate.induct capacity with
  | case1 s hc => intro hcap; exact absurd hc hcap
  | case2 s hc hdrop =>
    intro _ page hp
    rw [paginate] at hp
    simp only [dif_neg hc, dif_pos hdrop, List.mem_singleton] at hp
    rw [hp]
    exact mkPage_blank_cells s capacity
  | case3 s hc hdrop ih =>
    intro hcap page hp
    rw [paginate] at hp
    simp only [dif_neg hc, dif_neg hdrop, List.mem_cons] at hp
    rcases hp with rfl | hp
    · exact mkPage_blank_cells s capacity
    · exact ih hcap page hp

/-- Pages before the last contain no blank cells. -/
theorem paginate_dropLast_real (capacity : ℕ) (stream : List Sticker) :
    capacity ≠ 0 →
    ∀ page ∈ (paginate capacity stream).dropLast, ∀ c ∈ page, c.is_blank = false := by
  induction stream using paginate.induct capacity with
  | case1 s hc => intro hcap; exact absurd hc hcap
  | case2 s hc hdrop =>
    intro _ page hp
    rw [paginate] at hp
    simp only [dif_neg hc, dif_pos hdrop, List.dropLast_single,
      List.not_mem_nil] at hp
  | case3 s hc hdrop ih =>
    intro hcap page hp
    have hdne : s.drop capacity ≠ [] := fun he => hdrop (by simp [he])
    have hge : capacity ≤ s.length := by
      have h1 : 0 < (s.drop capacity).length := List.length_pos.mpr hdne
      rw [List.length_drop] at h1
      omega
    rw [paginate] at hp
    simp only [dif_neg hc, dif_neg hdrop] at hp
    rw [List.dropLast_cons_of_ne_nil (paginate_ne_nil capacity _ hc)] at hp
    rcases List.mem_cons.mp hp with rfl | hp2
    · exact mkPage_all_real s capacity hge
    · exact ih hcap page hp2

/-- The last emitted page contains at least one real sticker. -/
theorem paginate_last_real (capacity : ℕ) (stream : List Sticker) :
    capacity ≠ 0 → stream ≠ [] →
    ∀ page, (paginate capacity stream).getLast? = some page →
      ∃ c ∈ page, c.is_blank = false := by
  induction stream using paginate.induct capacity with
  | case1 s hc => intro hcap; exact absurd hc hcap
  | case2 s hc hdrop =>
    intro _ hs page hp
    rw [paginate] at hp
    simp only [dif_neg hc, dif_pos hdrop, List.getLast?_singleton,
      Option.some.injEq] at hp
    rw [← hp]
    exact mkPage_head_real s capacity hc hs
  | case3 s hc hdrop ih =>
    intro hcap hs page hp
    have hdne : s.drop capacity ≠ [] := fun he => hdrop (by simp [he])
    rw [paginate] at hp
    simp only [dif_neg hc, dif_neg hdrop] at hp
    cases hl : paginate capacity (s.drop capacity) with
    | nil => exact absurd hl (paginate_ne_nil capacity _ hc)
    | cons b t =>
      rw [hl, List.getLast?_cons_cons] at hp
      exact ih hcap hdne page (by rw [hl]; exact hp)

/-- Claim C6: every emitted page renders exactly `capacity` cells; blank
filler cells carry empty top and bottom texts and the default black color;
the half-height divider is emitted for every cell regardless of its texts;
and the geometry operations of a cell do not depend on its texts or color,
so all pages share identical cell geometry. -/
theorem page_padding_spec (capacity : ℕ) (hcap : capacity ≠ 0)
    (stream : List Sticker) :
    (∀ page ∈ paginate capacity stream, page.length = capacity) ∧
    (∀ page ∈ paginate capacity stream, ∀ c ∈ page, c.is_blank = true → c = blankCell) ∧
    (∀ (f : Font) (x y w h size : ℚ) (color : RGB) (top bottom : String) (border : Bool),
      DrawOp.line (x + INNER_PAD_IN * inch) (y + h * (1/2))
          (x + w - INNER_PAD_IN * inch) (y + h * (1/2))
        ∈ draw_sticker f x y w h top bottom size color border) ∧
    (∀ (f : Font) (x y w h size : ℚ) (c₁ c₂ : RGB) (t₁ b₁ t₂ b₂ : String) (border : Bool),
      (draw_sticker f x y w h t₁ b₁ size c₁ border).filter isGeometryOp =
      (draw_sticker f x y w h t₂ b₂ size c₂ border).filter isGeometryOp) := by
  refine ⟨paginate_page_length capacity stream hcap,
    paginate_blank_cells capacity stream hcap, ?_, ?_⟩
  · intro f x y w h size color top bottom border
    simp [draw_sticker]
  · intro f x y w h size c₁ c₂ t₁ b₁ t₂ b₂ border
    simp only [draw_sticker, draw_centered_text_in_region, List.filter_append]
    split_ifs <;> simp [isGeometryOp]

/-- Witness for C6: with capacity 2 and a three-sticker stream, the final
emitted page holds one real cell and one blank cell, two cells in total. -/
theorem page_padding_spec_witness :
    ([Cell.mk "A" "B" black false, blankCell] : List Cell).length = 2 := by
  have hpag : paginate 2 [stickerPlain, stickerPlain, stickerPlain] =
      [[Cell.mk "A" "B" black false, Cell.mk "A" "B" black false],
       [Cell.mk "A" "B" black false, blankCell]] := by
    rw [paginate, dif_neg (by decide), dif_neg (by decide)]
    rw [paginate, dif_neg (by decide), dif_pos (by decide)]
    simp [mkPage, fillSlot, List.range_succ, stickerPlain]
  exact (page_padding_spec 2 (by decide) [stickerPlain, stickerPlain, stickerPlain]).1
    [Cell.mk "A" "B" black false, blankCell] (by rw [hpag]; simp)

/-- Rational ceiling of a quotient of naturals equals the rounded-up
natural division. -/
theorem ceil_natCast_div_natCast (n cap : ℕ) (hcap : cap ≠ 0) :
    ⌈(n : ℚ) / (cap : ℚ)⌉ = (((n + cap - 1) / cap : ℕ) : ℤ) := by
  have hpos : 0 < cap := Nat.pos_of_ne_zero hcap
  have hposQ : (0 : ℚ) < (cap : ℚ) := by exact_mod_cast hpos
  have hub : (n + cap - 1) / cap * cap ≤ n + cap - 1 := Nat.div_mul_le_self _ _
  have hlb : n + cap - 1 < ((n + cap - 1) / cap + 1) * cap :=
    (Nat.div_lt_iff_lt_mul hpos).mp (Nat.lt_succ_self _)
  rw [add_mul, one_mul] at hlb
  have hub' : (n + cap - 1) / cap * cap + 1 ≤ n + cap := by
    generalize (n + cap - 1) / cap * cap = t at hub hlb ⊢
    omega
  have hlb' : n ≤ (n + cap - 1) / cap * cap := by
    generalize (n + cap - 1) / cap * cap = t at hub hlb ⊢
    omega
  rw [Int.ceil_eq_iff]
  constructor
  · rw [lt_div_iff₀ hposQ]
    have hQ : ((((n + cap - 1) / cap : ℕ) : ℚ)) * ((cap : ℕ) : ℚ) + 1 ≤
        ((n : ℕ) : ℚ) + ((cap : ℕ) : ℚ) := by exact_mod_cast hub'
    rw [Int.cast_natCast]
    nlinarith
  · rw [div_le_iff₀ hposQ]
    have hQ : ((n : ℕ) : ℚ) ≤ (((n + cap - 1) / cap : ℕ) : ℚ) * ((cap : ℕ) : ℚ) := by
      exact_mod_cast hlb'
    rw [Int.cast_natCast]
    linarith

/-- Length of a flat-map of count-many repeats of one element per job. -/
theorem length_flatMap_replicate (g : Job → Sticker) (l : List Job) :
    (l.flatMap fun j => List.replicate j.count.toNat (g j)).length =
      (l.map fun j => j.count.toNat).sum := by
  induction l with
  | nil => rfl
  | cons j t ih =>
    simp only [List.flatMap_cons, List.length_append, List.length_replicate,
      List.map_cons, List.sum_cons, ih]

/-- The stream length is the sum of the truncated counts. -/
theorem sticker_stream_length (jobs : List Job) :
    (sticker_stream jobs).length = (jobs.map fun j => j.count.toNat).sum :=
  length_flatMap_replicate _ jobs

/-- Every cleaned row has a positive count. -/
theorem cleanRows_count_pos (raw : List RawRow) :
    ∀ j ∈ cleanRows raw, 0 < j.count := by
  intro j hj
  simp only [cleanRows, List.mem_filter, Bool.and_eq_true, decide_eq_true_eq] at hj
  exact hj.2.2

/-- A non-empty job list with positive counts yields a non-empty stream. -/
theorem sticker_stream_ne_nil (jobs : List Job) (hne : jobs ≠ [])
    (hpos : ∀ j ∈ jobs, 0 < j.count) : sticker_stream jobs ≠ [] := by
  cases jobs with
  | nil => exact absurd rfl hne
  | cons j t =>
    intro hcon
    have hlen := congrArg List.length hcon
    rw [sticker_stream_length] at hlen
    simp only [List.map_cons, List.sum_cons, List.length_nil] at hlen
    have hj := hpos j (List.mem_cons_self j t)
    omega

/-- Success of the generator destructured: all three validations passed,
the emitted pages are the paginated stream, and the summary fields. -/
theorem make_multi_ok_dest (raw : List RawRow) (spec : PageSpec)
    (pages : List (List Cell)) (summary : Summary)
    (h : make_multi_sticker_pdf_dynamic raw spec = .ok (pages, summary)) :
    cleanRows raw ≠ [] ∧
    0 < work_w_in spec ∧ 0 < work_h_in spec ∧
    0 < (gridOf spec).2.2 ∧
    pages = paginate (gridOf spec).2.2.toNat (sticker_stream (cleanRows raw)) ∧
    summary = Summary.mk (gridOf spec).1 (gridOf spec).2.1 (gridOf spec).2.2
      (sticker_stream (cleanRows raw)).length
      ⌈((sticker_stream (cleanRows raw)).length : ℚ) / (((gridOf spec).2.2 : ℤ) : ℚ)⌉
      (((uniquePairs (cleanRows raw)).map (colorMapping (cleanRows raw))).dedup.length) := by
  simp only [make_multi_sticker_pdf_dynamic] at h
  by_cases h1 : (cleanRows raw).isEmpty
  · rw [if_pos h1] at h
    exact absurd h (by simp)
  · rw [if_neg h1] at h
    by_cases h2 : work_w_in spec ≤ 0 ∨ work_h_in spec ≤ 0
    · rw [if_pos h2] at h
      exact absurd h (by simp)
    · rw [if_neg h2] at h
      by_cases h3 : (gridOf spec).2.2 ≤ 0
      · rw [if_pos h3] at h
        exact absurd h (by simp)
      · rw [if_neg h3] at h
        push_neg at h2 h3
        simp only [Except.ok.injEq, Prod.mk.injEq] at h
        refine ⟨fun he => h1 (by simp [he]), h2.1, h2.2, h3, h.1.symm, h.2.symm⟩

/-- Claim C1: whenever the generator succeeds (validated job list,
positive working area, positive grid capacity), it emits exactly
`ceil(total / capacity)` pages where `total` is the sum of the cleaned
counts, the summary's page count and total match, pages before the last
contain no blank cells, and the last emitted page contains at least one
real sticker — generation stops with the page on which the last real
sticker was drawn, with no trailing all-blank pages. -/
theorem pagination_spec (raw : List RawRow) (spec : PageSpec)
    (pages : List (List Cell)) (summary : Summary)
    (h : make_multi_sticker_pdf_dynamic raw spec = .ok (pages, summary)) :
    pages.length =
      (((cleanRows raw).map fun j => j.count.toNat).sum + (gridOf spec).2.2.toNat - 1) /
        (gridOf spec).2.2.toNat ∧
    summary.pages = (pages.length : ℤ) ∧
    summary.total = ((cleanRows raw).map fun j => j.count.toNat).sum ∧
    (∀ page ∈ pages.dropLast, ∀ c ∈ page, c.is_blank = false) ∧
    (∀ page, pages.getLast? = some page → ∃ c ∈ page, c.is_blank = false) := by
  obtain ⟨hne, hw, hhh, hcap, hpages, hsummary⟩ := make_multi_ok_dest raw spec pages summary h
  have hcapN : (gridOf spec).2.2.toNat ≠ 0 := by omega
  have hsne : sticker_stream (cleanRows raw) ≠ [] :=
    sticker_stream_ne_nil _ hne (cleanRows_count_pos raw)
  have hslen := sticker_stream_length (cleanRows raw)
  have hlen1 : pages.length =
      (((cleanRows raw).map fun j => j.count.toNat).sum + (gridOf spec).2.2.toNat - 1) /
        (gridOf spec).2.2.toNat := by
    rw [hpages, paginate_length _ _ hcapN hsne, hslen]
  refine ⟨hlen1, ?_, ?_, ?_, ?_⟩
  · rw [hsummary]
    show ⌈((sticker_stream (cleanRows raw)).length : ℚ) / (((gridOf spec).2.2 : ℤ) : ℚ)⌉ =
      (pages.length : ℤ)
    have hcast : (((gridOf spec).2.2 : ℤ) : ℚ) = (((gridOf spec).2.2.toNat : ℕ) : ℚ) := by
      rw [← Int.toNat_of_nonneg (le_of_lt hcap)]
      push_cast
      rw [Int.toNat_of_nonneg (le_of_lt hcap)]
    rw [hcast, ceil_natCast_div_natCast _ _ hcapN, hlen1, hslen]
  · rw [hsummary]
    exact hslen
  · rw [hpages]
    exact paginate_dropLast_real _ _ hcapN
  · rw [hpages]
    exact paginate_last_real _ _ hcapN hsne

/-- Witness for C1: one row with count 3 on the 2-capacity page spec emits
ceil(3/2) = 2 pages. -/
theorem pagination_spec_witness :
    pages0.length =
      (((cleanRows raw0).map fun j => j.count.toNat).sum + (gridOf spec0).2.2.toNat - 1) /
        (gridOf spec0).2.2.toNat := by
  have hA : pyStrip "A" = "A" := by decide
  have hB : pyStrip "B" = "B" := by decide
  have h3 : coerceCount (some (3 : ℚ)) = 3 := by
    show truncToZero (3 : ℚ) = 3
    unfold truncToZero
    rw [if_pos (by norm_num)]
    norm_num
  have hclean : cleanRows raw0 = [Job.mk "A" "B" 3] := by
    simp [cleanRows, raw0, hA, hB, h3]
  have hgrid : gridOf spec0 = (2, 1, 2) := by
    show compute_grid (work_w_in spec0) (work_h_in spec0)
      spec0.sticker_w_in spec0.sticker_h_in = (2, 1, 2)
    norm_num [compute_grid, work_w_in, work_h_in, spec0]
  have hstream : sticker_stream [Job.mk "A" "B" 3] = [stAB, stAB, stAB] := rfl
  have hpag : paginate 2 [stAB, stAB, stAB] = pages0 := by
    rw [paginate, dif_neg (by decide), dif_neg (by decide)]
    rw [paginate, dif_neg (by decide), dif_pos (by decide)]
    rfl
  have hmake : make_multi_sticker_pdf_dynamic raw0 spec0 = .ok (pages0, summary0) := by
    simp only [make_multi_sticker_pdf_dynamic]
    rw [hclean, hgrid]
    rw [if_neg (by decide), if_neg (by norm_num [work_w_in, work_h_in, spec0]),
      if_neg (by decide)]
    show Except.ok (paginate 2 (sticker_stream [Job.mk "A" "B" 3]),
      Summary.mk 2 1 2 (sticker_stream [Job.mk "A" "B" 3]).length
        ⌈((sticker_stream [Job.mk "A" "B" 3]).length : ℚ) / (((2 : ℤ) : ℤ) : ℚ)⌉
        (((uniquePairs [Job.mk "A" "B" 3]).map (colorMapping [Job.mk "A" "B" 3])).dedup.length))
      = Except.ok (pages0, summary0)
    rw [hstream, hpag]
    have hceil2 : ⌈(([stAB, stAB, stAB].length : ℕ) : ℚ) / (((2 : ℤ)) : ℚ)⌉ = (2 : ℤ) := by
      show ⌈((3 : ℕ) : ℚ) / (((2 : ℤ)) : ℚ)⌉ = (2 : ℤ)
      rw [Int.ceil_eq_iff]
      constructor <;> norm_num
    have hdedup : (((uniquePairs [Job.mk "A" "B" 3]).map
        (colorMapping [Job.mk "A" "B" 3])).dedup.length) = 1 := by
      show ([colorMapping [Job.mk "A" "B" 3] ("A", "B")] : List RGB).dedup.length = 1
      simp
    rw [hceil2, hdedup]
    rfl
  exact (pagination_spec raw0 spec0 pages0 summary0 hmake).1

/-- Claim C7: the generator returns an error exactly when no valid job
rows remain after cleaning, or the working area is non-positive on either
axis, or the computed grid capacity is zero (the capacity is never
negative, so `capacity ≤ 0` is `capacity = 0`); in every failure case the
result carries no document at all. -/
theorem validation_error_spec (raw : List RawRow) (spec : PageSpec) :
    (∃ e, make_multi_sticker_pdf_dynamic raw spec = .error e) ↔
      (cleanRows raw = [] ∨ work_w_in spec ≤ 0 ∨ work_h_in spec ≤ 0 ∨
        (gridOf spec).2.2 ≤ 0) := by
  constructor
  · rintro ⟨e, he⟩
    by_contra hcon
    simp only [not_or] at hcon
    obtain ⟨h1, h2, h3, h4⟩ := hcon
    simp only [make_multi_sticker_pdf_dynamic] at he
    rw [if_neg (by simpa [List.isEmpty_iff] using h1),
      if_neg (not_or.mpr ⟨h2, h3⟩), if_neg h4] at he
    exact absurd he (by simp)
  · intro hdisj
    simp only [make_multi_sticker_pdf_dynamic]
    by_cases h1 : (cleanRows raw).isEmpty
    · rw [if_pos h1]
      exact ⟨_, rfl⟩
    · rw [if_neg h1]
      have hne : cleanRows raw ≠ [] := fun he => h1 (by simp [he])
      by_cases h2 : work_w_in spec ≤ 0 ∨ work_h_in spec ≤ 0
      · rw [if_pos h2]
        exact ⟨_, rfl⟩
      · rw [if_neg h2]
        by_cases h3 : (gridOf spec).2.2 ≤ 0
        · rw [if_pos h3]
          exact ⟨_, rfl⟩
        · exfalso
          rw [not_or] at h2
          rcases hdisj with h | h | h | h
          · exact hne h
          · exact h2.1 h
          · exact h2.2 h
          · exact h3 h

/-- Claim C5: the cell of slot `s` sits at logical column `s mod columns`
and logical row `s div columns`, drawn `rows - 1 - (s div columns)` cell
heights above the bottom margin because the surface origin is at the
bottom, and the used grid is centered in the working area with symmetric
offsets `(working - used) / 2` on both axes. -/
theorem slot_placement_spec (spec : PageSpec) (slot : ℕ)
    (hcap : 0 < (gridOf spec).2.2) (hslot : slot < (gridOf spec).2.2.toNat) :
    slotPlacement spec slot =
      (spec.margin_in * inch +
         (work_w_in spec * inch - ((gridOf spec).1 : ℚ) * (spec.sticker_w_in * inch)) / 2 +
         ((slot % (gridOf spec).1.toNat : ℕ) : ℚ) * (spec.sticker_w_in * inch),
       spec.margin_in * inch +
         (work_h_in spec * inch - ((gridOf spec).2.1 : ℚ) * (spec.sticker_h_in * inch)) / 2 +
         (((gridOf spec).2.1.toNat - 1 - slot / (gridOf spec).1.toNat : ℕ) : ℚ) *
           (spec.sticker_h_in * inch)) ∧
    2 * ((work_w_in spec * inch - ((gridOf spec).1 : ℚ) * (spec.sticker_w_in * inch)) / 2) +
      ((gridOf spec).1 : ℚ) * (spec.sticker_w_in * inch) = work_w_in spec * inch ∧
    2 * ((work_h_in spec * inch - ((gridOf spec).2.1 : ℚ) * (spec.sticker_h_in * inch)) / 2) +
      ((gridOf spec).2.1 : ℚ) * (spec.sticker_h_in * inch) = work_h_in spec * inch := by
  have hg : (gridOf spec).2.2 = (gridOf spec).1 * (gridOf spec).2.1 := rfl
  have hc0 : (0 : ℤ) ≤ (gridOf spec).1 := le_max_right _ _
  have hr0 : (0 : ℤ) ≤ (gridOf spec).2.1 := le_max_right _ _
  set cols := (gridOf spec).1 with hcols
  set rows := (gridOf spec).2.1 with hrows
  have hcne : cols ≠ 0 := by
    intro h
    rw [hg, h, zero_mul] at hcap
    exact lt_irrefl 0 hcap
  have hrne : rows ≠ 0 := by
    intro h
    rw [hg, h, mul_zero] at hcap
    exact lt_irrefl 0 hcap
  have hcolsN : 0 < cols.toNat := by omega
  have hrowsN : 0 < rows.toNat := by omega
  have hcapN : ((gridOf spec).2.2).toNat = cols.toNat * rows.toNat := by
    have e1 : (((gridOf spec).2.2).toNat : ℤ) = ((cols.toNat * rows.toNat : ℕ) : ℤ) := by
      rw [Int.toNat_of_nonneg (le_of_lt hcap), hg]
      push_cast
      rw [Int.toNat_of_nonneg hc0, Int.toNat_of_nonneg hr0]
    exact_mod_cast e1
  have hmod : (slot : ℤ) % cols = ((slot % cols.toNat : ℕ) : ℤ) := by
    rw [Int.natCast_mod]
    congr 1
    exact (Int.toNat_of_nonneg hc0).symm
  have hdiv : (slot : ℤ) / cols = ((slot / cols.toNat : ℕ) : ℤ) := by
    rw [Int.natCast_div]
    congr 1
    exact (Int.toNat_of_nonneg hc0).symm
  have hlt : slot / cols.toNat < rows.toNat := by
    rw [hcapN, Nat.mul_comm] at hslot
    exact (Nat.div_lt_iff_lt_mul hcolsN).mpr hslot
  have hrfb : rows - 1 - (slot : ℤ) / cols = ((rows.toNat - 1 - slot / cols.toNat : ℕ) : ℤ) := by
    rw [hdiv]
    generalize slot / cols.toNat = d at hlt ⊢
    omega
  refine ⟨?_, by ring, by ring⟩
  simp only [slotPlacement]
  rw [Prod.mk.injEq]
  constructor
  · rw [hmod, Int.cast_natCast]
  · rw [hrfb, Int.cast_natCast]

/-- Witness for C5 at the spec scenario page (grid 10 x 29, capacity 290):
the horizontal centering offset is symmetric. -/
theorem slot_placement_spec_witness :
    2 * ((work_w_in specBig * inch -
        ((gridOf specBig).1 : ℚ) * (specBig.sticker_w_in * inch)) / 2) +
      ((gridOf specBig).1 : ℚ) * (specBig.sticker_w_in * inch) =
      work_w_in specBig * inch := by
  have hgB : gridOf specBig = (10, 29, 290) := by
    show compute_grid (work_w_in specBig) (work_h_in specBig)
      specBig.sticker_w_in specBig.sticker_h_in = (10, 29, 290)
    norm_num [compute_grid, work_w_in, work_h_in, specBig]
  exact (slot_placement_spec specBig 17
    (by rw [hgB]; norm_num) (by rw [hgB]; norm_num)).2.1

end StickerPdf
